import Mathlib

/-!
Verification of the Git status and branch logic of the QT git file
explorer.  The GitManager functions of src/main.py are embedded
shallowly: Python strings become lists of characters, and every
subprocess.run call becomes an explicit outcome value, so every
function below is a pure, executable translation of the source.
-/

/-- Python strings are modelled as lists of characters. -/
abbrev Str := List Char

/-- The character list of a Lean string literal. -/
def chars (s : String) : Str := s.data

/-- Python str.startswith: the second argument is a leading segment of the
first. -/
def startswith : Str → Str → Bool
  | _, [] => true
  | [], _ :: _ => false
  | c :: s, p :: ps => c == p && startswith s ps

/-- The whitespace characters removed by Python str.strip (the ASCII
whitespace range; git output contains no exotic Unicode whitespace). -/
def isPySpace (c : Char) : Bool :=
  c == ' ' || c == '\t' || c == '\n' || c == '\r' || c == '\x0b' || c == '\x0c'

/-- Python str.lstrip over a character class. -/
def pyLstrip (p : Char → Bool) (s : Str) : Str := s.dropWhile p

/-- Python str.rstrip over a character class. -/
def pyRstrip (p : Char → Bool) (s : Str) : Str := (s.reverse.dropWhile p).reverse

/-- Python str.strip with no argument. -/
def pyStrip (s : Str) : Str := pyRstrip isPySpace (pyLstrip isPySpace s)

/-- Python str.split(sep) for a one-character separator: splits at every
occurrence of the separator, and the empty string yields one empty piece. -/
def pySplit (sep : Char) : Str → List Str
  | [] => [[]]
  | c :: s =>
    match pySplit sep s with
    | [] => [[]]
    | h :: t => if c == sep then [] :: h :: t else (c :: h) :: t

/-- The outcome of one subprocess.run invocation: a completed process with
its exit code, stdout and stderr, or an exception raised by the call (a
timeout expiry, or a failure to launch the executable such as
FileNotFoundError); for an exception the field holds its str(e) text. -/
inductive RunResult where
  | completed (returncode : Int) (stdout : Str) (stderr : Str)
  | timeoutExpired (e : Str)
  | launchError (e : Str)
deriving DecidableEq

/-- The status dictionary built by GitManager.get_repo_status. -/
structure RepoStatus where
  modified : Nat
  added : Nat
  deleted : Nat
  clean : Bool
deriving DecidableEq

/-- Modified-line test of get_repo_status (src/main.py line 88). -/
def isModLine (l : Str) : Bool :=
  startswith l (chars (" M")) || startswith l (chars ("M "))

/-- Added-line test of get_repo_status (src/main.py line 89). -/
def isAddLine (l : Str) : Bool :=
  startswith l (chars ("A ")) || startswith l (chars ("??"))

/-- Deleted-line test of get_repo_status (src/main.py line 90). -/
def isDelLine (l : Str) : Bool :=
  startswith l (chars (" D")) || startswith l (chars ("D "))

/-- result.stdout.strip().split on the newline character. -/
def statusLines (out : Str) : List Str := pySplit '\n' (pyStrip out)

def countModified (lines : List Str) : Nat := (lines.filter isModLine).length

def countAdded (lines : List Str) : Nat := (lines.filter isAddLine).length

def countDeleted (lines : List Str) : Nat := (lines.filter isDelLine).length

/-- The status dictionary computed by get_repo_status when the git call
exits with code 0 (src/main.py lines 86 to 96). -/
def parseStatus (out : Str) : RepoStatus :=
  let lines := statusLines out
  { modified := countModified lines
    added := countAdded lines
    deleted := countDeleted lines
    clean := lines.length == 1 && (lines.getD 0 [] == ([] : Str)) }

/-- GitManager.get_repo_status as a function of the outcome of its git
status call; any exception is swallowed and None is returned. -/
def get_repo_status (r : RunResult) : Option RepoStatus :=
  match r with
  | .completed rc out _ => if rc == 0 then some (parseStatus out) else none
  | .timeoutExpired _ => none
  | .launchError _ => none

theorem count_append (p : Str → Bool) (lines : List Str) (l : Str) :
    ((lines ++ [l]).filter p).length
      = (lines.filter p).length + (if p l = true then 1 else 0) := by
  rw [List.filter_append]
  by_cases h : p l = true <;> simp [h]

theorem startswith_same_length (l : Str) : ∀ (p q : Str), p.length = q.length →
    startswith l p = true → startswith l q = true → p = q := by
  induction l with
  | nil =>
    intro p q hl h1 h2
    cases p with
    | nil => cases q with
      | nil => rfl
      | cons b bs => simp at hl
    | cons a as => simp [startswith] at h1
  | cons c cs ih =>
    intro p q hl h1 h2
    cases p with
    | nil => cases q with
      | nil => rfl
      | cons b bs => simp at hl
    | cons a as =>
      cases q with
      | nil => simp at hl
      | cons b bs =>
        simp only [startswith, Bool.and_eq_true, beq_iff_eq] at h1 h2
        have has : as = bs := by
          apply ih as bs _ h1.2 h2.2
          simpa using hl
        rw [← h1.1, ← h2.1, has]

theorem sw_distinct {l p q : Str} (hl : p.length = q.length) (hne : p ≠ q)
    (h1 : startswith l p = true) (h2 : startswith l q = true) : False :=
  hne (startswith_same_length l p q hl h1 h2)

theorem swMod_not_add (l : Str) (hm : isModLine l = true) (ha : isAddLine l = true) : False := by
  simp only [isModLine, isAddLine, Bool.or_eq_true] at hm ha
  rcases hm with h1 | h1 <;> rcases ha with h2 | h2 <;>
    exact sw_distinct (by decide) (by decide) h1 h2

theorem swMod_not_del (l : Str) (hm : isModLine l = true) (hd : isDelLine l = true) : False := by
  simp only [isModLine, isDelLine, Bool.or_eq_true] at hm hd
  rcases hm with h1 | h1 <;> rcases hd with h2 | h2 <;>
    exact sw_distinct (by decide) (by decide) h1 h2

theorem swAdd_not_del (l : Str) (ha : isAddLine l = true) (hd : isDelLine l = true) : False := by
  simp only [isAddLine, isDelLine, Bool.or_eq_true] at ha hd
  rcases ha with h1 | h1 <;> rcases hd with h2 | h2 <;>
    exact sw_distinct (by decide) (by decide) h1 h2

theorem statusFlags_le_one (l : Str) :
    (if isModLine l = true then 1 else 0) + (if isAddLine l = true then 1 else 0)
      + (if isDelLine l = true then 1 else 0) ≤ 1 := by
  by_cases hm : isModLine l = true <;> by_cases ha : isAddLine l = true <;>
    by_cases hd : isDelLine l = true <;> simp [hm, ha, hd]
  · exact swMod_not_add l hm ha
  · exact swMod_not_add l hm ha
  · exact swMod_not_del l hm hd
  · exact swAdd_not_del l ha hd

theorem count_cons (p : Str → Bool) (l : Str) (ls : List Str) :
    ((l :: ls).filter p).length = (if p l = true then 1 else 0) + (ls.filter p).length := by
  by_cases h : p l = true <;> simp [List.filter_cons, h, Nat.add_comm]

theorem counts_le_length (lines : List Str) :
    countModified lines + countAdded lines + countDeleted lines ≤ lines.length := by
  induction lines with
  | nil => simp [countModified, countAdded, countDeleted]
  | cons l ls ih =>
    have h := statusFlags_le_one l
    simp only [countModified, countAdded, countDeleted] at *
    rw [count_cons isModLine, count_cons isAddLine, count_cons isDelLine, List.length_cons]
    omega

/-- C1: in the status output parsed by get_repo_status, a line adds one to
the modified count exactly when it begins with the two characters space-M
or M-space, one to the added count exactly when it begins with A-space or
two question marks, and one to the deleted count exactly when it begins
with space-D or D-space; a line with any other leading pair, such as a
rename line R-space-space, changes none of the three counts, and the
counts of the returned snapshot are exactly these line counts. -/
theorem c1_status_line_counting (lines : List Str) (l : Str) (out err : Str) :
    (countModified (lines ++ [l]) = countModified lines
        + (if (startswith l (chars (" M")) || startswith l (chars ("M "))) = true then 1 else 0))
  ∧ (countAdded (lines ++ [l]) = countAdded lines
        + (if (startswith l (chars ("A ")) || startswith l (chars ("??"))) = true then 1 else 0))
  ∧ (countDeleted (lines ++ [l]) = countDeleted lines
        + (if (startswith l (chars (" D")) || startswith l (chars ("D "))) = true then 1 else 0))
  ∧ get_repo_status (RunResult.completed 0 out err) = some (parseStatus out)
  ∧ (parseStatus out).modified = countModified (statusLines out)
  ∧ (parseStatus out).added = countAdded (statusLines out)
  ∧ (parseStatus out).deleted = countDeleted (statusLines out)
  ∧ countModified (lines ++ [chars ("R  old -> new")]) = countModified lines
  ∧ countAdded (lines ++ [chars ("R  old -> new")]) = countAdded lines
  ∧ countDeleted (lines ++ [chars ("R  old -> new")]) = countDeleted lines := by
  refine ⟨count_append isModLine lines l, count_append isAddLine lines l,
    count_append isDelLine lines l, rfl, rfl, rfl, rfl, ?_, ?_, ?_⟩
  · simp [countModified, List.filter_append,
      show isModLine (chars ("R  old -> new")) = false from by decide]
  · simp [countAdded, List.filter_append,
      show isAddLine (chars ("R  old -> new")) = false from by decide]
  · simp [countDeleted, List.filter_append,
      show isDelLine (chars ("R  old -> new")) = false from by decide]

theorem clean_flag_iff (lines : List Str) :
    (lines.length == 1 && (lines.getD 0 [] == ([] : Str))) = true ↔ lines = [[]] := by
  match lines with
  | [] => simp
  | [x] => simp [List.getD]
  | x :: y :: t => simp

/-- C2: the snapshot returned by get_repo_status has clean = true exactly
when all three counts are zero and the parsed status output reported no
status lines (the split line list is the single empty line); in
particular a status output of exactly one empty line yields a clean
snapshot with all counts zero. -/
theorem c2_clean_iff (out err : Str) :
    get_repo_status (RunResult.completed 0 out err) = some (parseStatus out)
  ∧ ((parseStatus out).clean = true ↔
      (parseStatus out).modified = 0 ∧ (parseStatus out).added = 0
        ∧ (parseStatus out).deleted = 0 ∧ statusLines out = [[]])
  ∧ parseStatus (chars ("\n")) = { modified := 0, added := 0, deleted := 0, clean := true } := by
  refine ⟨rfl, ?_, by decide⟩
  constructor
  · intro h
    have hl : statusLines out = [[]] := by
      have := (clean_flag_iff (statusLines out)).1 h
      exact this
    refine ⟨?_, ?_, ?_, hl⟩ <;>
      simp [parseStatus, hl, countModified, countAdded, countDeleted,
        isModLine, isAddLine, isDelLine, startswith]
  · rintro ⟨-, -, -, hl⟩
    show (_ && _) = true
    rw [show statusLines out = [[]] from hl]
    decide

theorem c2_clean_iff_witness :
    get_repo_status (RunResult.completed 0 (chars ("\n")) []) = some (parseStatus (chars ("\n")))
  ∧ ((parseStatus (chars ("\n"))).clean = true ↔
      (parseStatus (chars ("\n"))).modified = 0 ∧ (parseStatus (chars ("\n"))).added = 0
        ∧ (parseStatus (chars ("\n"))).deleted = 0 ∧ statusLines (chars ("\n")) = [[]])
  ∧ parseStatus (chars ("\n")) = { modified := 0, added := 0, deleted := 0, clean := true } :=
  c2_clean_iff (chars ("\n")) []

/-- C10: the six recognized two-character status tests are mutually
exclusive, so each status line contributes to at most one of the three
counters, and the three counters of get_repo_status never sum to more
than the number of status lines. -/
theorem c10_prefix_exclusive (lines : List Str) :
    countModified lines + countAdded lines + countDeleted lines ≤ lines.length
  ∧ ∀ l : Str,
      (if isModLine l = true then 1 else 0) + (if isAddLine l = true then 1 else 0)
        + (if isDelLine l = true then 1 else 0) ≤ 1 :=
  ⟨counts_le_length lines, fun l => statusFlags_le_one l⟩

/-- Python str.replace(old, new), fuelled for structural recursion: scans
left to right and rewrites every non-overlapping occurrence of the
pattern.  Every step consumes at least one character, so a fuel equal to
the length of the scanned string is never exhausted.  The source only
calls it with a non-empty pattern; for an empty pattern this model
leaves the string unchanged. -/
def replaceAllFuel (pat rep : Str) : Nat → Str → Str
  | _, [] => []
  | 0, s => s
  | fuel + 1, c :: s =>
    if pat ≠ [] ∧ startswith (c :: s) pat = true then
      rep ++ replaceAllFuel pat rep fuel (List.drop (pat.length - 1) s)
    else
      c :: replaceAllFuel pat rep fuel s

/-- Python str.replace(old, new) over the whole string. -/
def replaceAll (pat rep : Str) (s : Str) : Str := replaceAllFuel pat rep s.length s

/-- The characters removed by the lstrip call of get_all_branches: the
star marking the current branch and the space. -/
def isStarSpace (c : Char) : Bool := c == '*' || c == ' '

/-- line.strip().lstrip of star and space, then .strip() again
(src/main.py line 272). -/
def cleanBranchLine (l : Str) : Str := pyStrip (pyLstrip isStarSpace (pyStrip l))

def originPfx : Str := chars ("remotes/origin/")

def originHeadPfx : Str := chars ("remotes/origin/HEAD")

/-- One loop iteration of get_all_branches up to the duplicate test: clean
the line, drop it when it is empty or marks the remote HEAD pseudo-ref,
and rewrite the remotes/origin/ occurrences away (src/main.py lines
271 to 275). -/
def branchEntry (l : Str) : Option Str :=
  let b := cleanBranchLine l
  if b != [] && !(startswith b originHeadPfx) then
    some (if startswith b originPfx then replaceAll originPfx [] b else b)
  else none

/-- The duplicate-avoiding append of get_all_branches (lines 276 to 277). -/
def insertBranch (acc : List Str) (l : Str) : List Str :=
  match branchEntry l with
  | some b => if b ∈ acc then acc else acc ++ [b]
  | none => acc

/-- The branch-list parse of get_all_branches over the stdout text. -/
def parseBranches (out : Str) : List Str :=
  (pySplit '\n' (pyStrip out)).foldl insertBranch []

/-- GitManager.get_all_branches as a function of the outcome of its git
branch -a call; failures degrade to the empty list. -/
def get_all_branches (r : RunResult) : List Str :=
  match r with
  | .completed rc out _ => if rc == 0 then parseBranches out else []
  | .timeoutExpired _ => []
  | .launchError _ => []

/-- Keep the first occurrence of every element, in first-seen order. -/
def dedupFirst {α : Type} [DecidableEq α] : List α → List α
  | [] => []
  | a :: l => a :: dedupFirst (l.filter (fun x => !(decide (x = a))))
termination_by l => l.length
decreasing_by
  simp_wf
  have := List.length_filter_le (fun x => !(decide (x = a))) l
  omega

theorem mem_dedupFirst {α : Type} [DecidableEq α] (x : α) : ∀ (l : List α),
    x ∈ dedupFirst l ↔ x ∈ l := by
  intro l
  generalize hn : l.length = n
  induction n using Nat.strong_induction_on generalizing l with
  | _ n ih =>
    cases l with
    | nil => simp [dedupFirst]
    | cons a t =>
      rw [dedupFirst]
      have hlt : (t.filter (fun x => !(decide (x = a)))).length < n := by
        have := List.length_filter_le (fun x => !(decide (x = a))) t
        simp at hn
        omega
      have hrec := ih _ hlt (t.filter (fun x => !(decide (x = a)))) rfl
      by_cases hxa : x = a
      · simp [hxa]
      · simp [hxa, hrec, List.mem_filter]

theorem nodup_dedupFirst {α : Type} [DecidableEq α] : ∀ (l : List α),
    (dedupFirst l).Nodup := by
  intro l
  generalize hn : l.length = n
  induction n using Nat.strong_induction_on generalizing l with
  | _ n ih =>
    cases l with
    | nil => simp [dedupFirst]
    | cons a t =>
      rw [dedupFirst]
      have hlt : (t.filter (fun x => !(decide (x = a)))).length < n := by
        have := List.length_filter_le (fun x => !(decide (x = a))) t
        simp at hn
        omega
      refine List.nodup_cons.2 ⟨?_, ih _ hlt _ rfl⟩
      intro hmem
      have := (mem_dedupFirst a _).1 hmem
      have := (List.mem_filter.1 this).2
      simp at this

theorem foldl_insertBranch (ls : List Str) : ∀ (acc : List Str),
    ls.foldl insertBranch acc
      = acc ++ dedupFirst ((ls.filterMap branchEntry).filter (fun x => !(decide (x ∈ acc)))) := by
  induction ls with
  | nil => intro acc; simp [dedupFirst]
  | cons l t ih =>
    intro acc
    rw [List.foldl_cons, List.filterMap_cons]
    cases hb : branchEntry l with
    | none => simp [insertBranch, hb, ih acc]
    | some b =>
      by_cases hmem : b ∈ acc
      · have hstep : insertBranch acc l = acc := by simp [insertBranch, hb, hmem]
        rw [hstep, ih acc, List.filter_cons]
        simp [hmem]
      · have hstep : insertBranch acc l = acc ++ [b] := by simp [insertBranch, hb, hmem]
        rw [hstep, ih (acc ++ [b]), List.filter_cons]
        have hpred : (t.filterMap branchEntry).filter (fun x => !(decide (x ∈ acc ++ [b])))
            = ((t.filterMap branchEntry).filter (fun x => !(decide (x ∈ acc)))).filter
                (fun x => !(decide (x = b))) := by
          rw [List.filter_filter]
          apply List.filter_congr
          intro x _
          by_cases h1 : x ∈ acc <;> by_cases h2 : x = b <;>
            simp [h1, h2, List.mem_append]
        rw [hpred, if_pos (by simp [hmem])]
        simp only [dedupFirst, List.filter_filter, List.append_assoc, List.singleton_append]

theorem parseBranches_eq (out : Str) :
    parseBranches out = dedupFirst ((pySplit '\n' (pyStrip out)).filterMap branchEntry) := by
  unfold parseBranches
  rw [foldl_insertBranch]
  have hfil : ((pySplit '\n' (pyStrip out)).filterMap branchEntry).filter
        (fun x => !(decide (x ∈ ([] : List Str))))
      = (pySplit '\n' (pyStrip out)).filterMap branchEntry := by
    apply List.filter_eq_self.2
    intro a _
    simp
  rw [hfil]
  simp

theorem startswith_append_self (p s : Str) : startswith (p ++ s) p = true := by
  induction p with
  | nil => simp [startswith]
  | cons a as ih => simp [startswith, ih]

theorem eq_append_drop_of_startswith (s : Str) : ∀ (p : Str), startswith s p = true →
    s = p ++ s.drop p.length := by
  induction s with
  | nil =>
    intro p h
    cases p with
    | nil => rfl
    | cons a as => simp [startswith] at h
  | cons c cs ih =>
    intro p h
    cases p with
    | nil => rfl
    | cons a as =>
      simp only [startswith, Bool.and_eq_true, beq_iff_eq] at h
      rw [List.length_cons, List.cons_append, List.drop_succ_cons]
      rw [h.1, ← ih as h.2]

/-- Well-formedness of one line of git branch -a output: its cleaned form
is never the bare name HEAD (git rejects HEAD as a local branch name, and
remote HEAD refs carry the remotes marker), and a line that begins with
the remotes/origin/ marker contains that marker only at its front, so
replacing every occurrence of the marker is the same as dropping the
front copy. -/
def gitBranchLineOK (l : Str) : Bool :=
  (cleanBranchLine l != chars ("HEAD"))
  && (!(startswith (cleanBranchLine l) originPfx)
      || (replaceAll originPfx [] (cleanBranchLine l)
            == (cleanBranchLine l).drop originPfx.length))

theorem branchEntry_ne_HEAD (l : Str) (h : gitBranchLineOK l = true) :
    ∀ b, branchEntry l = some b → b ≠ chars ("HEAD") := by
  intro b hb hbad
  simp only [gitBranchLineOK, Bool.and_eq_true, Bool.or_eq_true, bne_iff_ne,
    Bool.not_eq_eq_eq_not, Bool.not_true, beq_iff_eq] at h
  simp only [branchEntry] at hb
  split at hb
  case isFalse => exact Option.noConfusion hb
  case isTrue hg =>
    have hbval := Option.some.inj hb
    rw [Bool.and_eq_true] at hg
    by_cases hsw : startswith (cleanBranchLine l) originPfx = true
    · rw [if_pos hsw] at hbval
      rcases h.2 with hfalse | hdrop
      · rw [hsw] at hfalse; exact Bool.noConfusion hfalse
      · have hdropHead : (cleanBranchLine l).drop originPfx.length = chars ("HEAD") := by
          rw [← hdrop, hbval, hbad]
        have hcl : cleanBranchLine l = originPfx ++ chars ("HEAD") := by
          have := eq_append_drop_of_startswith (cleanBranchLine l) originPfx hsw
          rw [hdropHead] at this
          exact this
        have hhead : startswith (cleanBranchLine l) originHeadPfx = true := by
          rw [hcl]; decide
        rw [hhead] at hg
        simp at hg
    · rw [if_neg hsw] at hbval
      exact h.1 (hbval ▸ hbad)

/-- C3: the list built by get_all_branches from well-formed git branch -a
output has no duplicate entries, contains no literal HEAD entry, equals
the first-occurrence deduplication of the per-line entries in input
order, and contains every per-line entry (with the remotes/origin/ marker
removed by branchEntry). -/
theorem c3_all_branches (out : Str)
    (H : ∀ l ∈ pySplit '\n' (pyStrip out), gitBranchLineOK l = true) :
    (parseBranches out).Nodup
  ∧ chars ("HEAD") ∉ parseBranches out
  ∧ parseBranches out = dedupFirst ((pySplit '\n' (pyStrip out)).filterMap branchEntry)
  ∧ ∀ l ∈ pySplit '\n' (pyStrip out), ∀ b, branchEntry l = some b →
      b ∈ parseBranches out := by
  have hpe := parseBranches_eq out
  refine ⟨?_, ?_, hpe, ?_⟩
  · rw [hpe]; exact nodup_dedupFirst _
  · rw [hpe]
    intro hmem
    have hmem2 := (mem_dedupFirst _ _).1 hmem
    obtain ⟨l, hl, hb⟩ := List.mem_filterMap.1 hmem2
    exact branchEntry_ne_HEAD l (H l hl) _ hb rfl
  · intro l hl b hb
    rw [hpe]
    exact (mem_dedupFirst _ _).2 (List.mem_filterMap.2 ⟨l, hl, hb⟩)

/-- A concrete git branch -a output used to instantiate c3_all_branches. -/
def branchSample : Str :=
  chars ("* main\n  remotes/origin/HEAD -> origin/main\n  remotes/origin/dev\n  dev")

theorem c3_all_branches_witness :
    (∀ l ∈ pySplit '\n' (pyStrip branchSample), gitBranchLineOK l = true)
  ∧ ((parseBranches branchSample).Nodup
      ∧ chars ("HEAD") ∉ parseBranches branchSample
      ∧ parseBranches branchSample
          = dedupFirst ((pySplit '\n' (pyStrip branchSample)).filterMap branchEntry)
      ∧ ∀ l ∈ pySplit '\n' (pyStrip branchSample), ∀ b, branchEntry l = some b →
          b ∈ parseBranches branchSample) :=
  ⟨by decide, c3_all_branches branchSample (by decide)⟩

/-- A subprocess command of the source: its argument vector and the
timeout in seconds passed to subprocess.run. -/
structure Cmd where
  args : List String
  timeout : Nat
deriving DecidableEq

/-- git status --porcelain (src/main.py lines 80 to 85). -/
def status_cmd (path : String) : Cmd :=
  { args := ["git", "-C", path, "status", "--porcelain"], timeout := 5 }

/-- git branch --show-current (lines 105 to 110). -/
def current_branch_cmd (path : String) : Cmd :=
  { args := ["git", "-C", path, "branch", "--show-current"], timeout := 2 }

/-- git remote get-url origin (lines 121 to 126). -/
def remote_url_cmd (path : String) : Cmd :=
  { args := ["git", "-C", path, "remote", "get-url", "origin"], timeout := 2 }

/-- git rev-parse of the upstream ref (lines 137 to 142). -/
def upstream_cmd (path : String) : Cmd :=
  { args := ["git", "-C", path, "rev-parse", "--abbrev-ref", "--symbolic-full-name",
      "@\x7bu\x7d"], timeout := 2 }

/-- git branch -a (lines 263 to 268). -/
def branch_all_cmd (path : String) : Cmd :=
  { args := ["git", "-C", path, "branch", "-a"], timeout := 5 }

/-- git config --global user.name (lines 54 to 59). -/
def config_name_cmd : Cmd :=
  { args := ["git", "config", "--global", "user.name"], timeout := 2 }

/-- git config --global user.email (lines 62 to 67). -/
def config_email_cmd : Cmd :=
  { args := ["git", "config", "--global", "user.email"], timeout := 2 }

/-- git remote add (lines 151 to 156). -/
def add_remote_cmd (path remoteName url : String) : Cmd :=
  { args := ["git", "-C", path, "remote", "add", remoteName, url], timeout := 5 }

/-- git branch --set-upstream-to (lines 168 to 173). -/
def set_upstream_cmd (path remoteName branchName : String) : Cmd :=
  { args := ["git", "-C", path, "branch", "--set-upstream-to",
      remoteName ++ "/" ++ branchName], timeout := 5 }

/-- git push --set-upstream (lines 185 to 190). -/
def push_set_upstream_cmd (path remoteName branchName : String) : Cmd :=
  { args := ["git", "-C", path, "push", "--set-upstream", remoteName, branchName],
    timeout := 30 }

/-- git add -A (lines 203 to 208). -/
def stage_cmd (path : String) : Cmd :=
  { args := ["git", "-C", path, "add", "-A"], timeout := 5 }

/-- git commit -m (lines 212 to 217). -/
def commit_cmd (path message : String) : Cmd :=
  { args := ["git", "-C", path, "commit", "-m", message], timeout := 5 }

/-- git push (lines 229 to 234). -/
def push_cmd (path : String) : Cmd :=
  { args := ["git", "-C", path, "push"], timeout := 30 }

/-- git pull (lines 246 to 251). -/
def pull_cmd (path : String) : Cmd :=
  { args := ["git", "-C", path, "pull"], timeout := 30 }

/-- git checkout (lines 287 to 292). -/
def checkout_cmd (path branchName : String) : Cmd :=
  { args := ["git", "-C", path, "checkout", branchName], timeout := 5 }

/-- git checkout -b (lines 304 to 309). -/
def create_branch_cmd (path branchName : String) : Cmd :=
  { args := ["git", "-C", path, "checkout", "-b", branchName], timeout := 5 }

/-- git checkout inside rename_branch (lines 323 to 328). -/
def rename_checkout_cmd (path branchName : String) : Cmd :=
  { args := ["git", "-C", path, "checkout", branchName], timeout := 5 }

/-- git branch -m (lines 332 to 337). -/
def branch_move_cmd (path newName : String) : Cmd :=
  { args := ["git", "-C", path, "branch", "-m", newName], timeout := 5 }

/-- GitManager.get_current_branch as a function of its git call outcome. -/
def get_current_branch (r : RunResult) : Option Str :=
  match r with
  | .completed rc out _ => if rc == 0 then some (pyStrip out) else none
  | .timeoutExpired _ => none
  | .launchError _ => none

/-- GitManager.get_remote_url as a function of its git call outcome. -/
def get_remote_url (r : RunResult) : Option Str :=
  match r with
  | .completed rc out _ => if rc == 0 then some (pyStrip out) else none
  | .timeoutExpired _ => none
  | .launchError _ => none

/-- GitManager.has_upstream_branch as a function of its git call outcome. -/
def has_upstream_branch (r : RunResult) : Bool :=
  match r with
  | .completed rc out _ => rc == 0 && pyStrip out != []
  | .timeoutExpired _ => false
  | .launchError _ => false

/-- The apostrophe character used in the source's f-string messages. -/
def apos : Char := Char.ofNat 39

/-- A branch name wrapped in apostrophes, as the f-strings of the source
produce. -/
def quoteStr (s : Str) : Str := apos :: (s ++ [apos])

/-- GitManager.add_remote as a function of its git call outcome. -/
def add_remote (r : RunResult) : Bool × Str :=
  match r with
  | .completed rc _ err =>
    if rc == 0 then (true, chars ("Remote added successfully")) else (false, err)
  | .timeoutExpired e => (false, e)
  | .launchError e => (false, e)

/-- GitManager.set_upstream as a function of its git call outcome. -/
def set_upstream (r : RunResult) : Bool × Str :=
  match r with
  | .completed rc _ err =>
    if rc == 0 then (true, chars ("Upstream set successfully")) else (false, err)
  | .timeoutExpired e => (false, e)
  | .launchError e => (false, e)

/-- GitManager.push_set_upstream as a function of its git call outcome. -/
def push_set_upstream (r : RunResult) : Bool × Str :=
  match r with
  | .completed rc _ err =>
    if rc == 0 then (true, chars ("Push successful and upstream set")) else (false, err)
  | .timeoutExpired e => (false, e)
  | .launchError e => (false, e)

/-- GitManager.push_changes as a function of its git call outcome. -/
def push_changes (r : RunResult) : Bool × Str :=
  match r with
  | .completed rc _ err =>
    if rc == 0 then (true, chars ("Push successful")) else (false, err)
  | .timeoutExpired e => (false, e)
  | .launchError e => (false, e)

/-- GitManager.pull_changes as a function of its git call outcome. -/
def pull_changes (r : RunResult) : Bool × Str :=
  match r with
  | .completed rc _ err =>
    if rc == 0 then (true, chars ("Pull successful")) else (false, err)
  | .timeoutExpired e => (false, e)
  | .launchError e => (false, e)

/-- GitManager.checkout_branch as a function of its git call outcome. -/
def checkout_branch (branchName : Str) (r : RunResult) : Bool × Str :=
  match r with
  | .completed rc _ err =>
    if rc == 0 then (true, chars ("Switched to branch ") ++ quoteStr branchName)
    else (false, err)
  | .timeoutExpired e => (false, e)
  | .launchError e => (false, e)

/-- GitManager.create_branch as a function of its git call outcome. -/
def create_branch (branchName : Str) (r : RunResult) : Bool × Str :=
  match r with
  | .completed rc _ err =>
    if rc == 0 then (true, chars ("Created and switched to branch ") ++ quoteStr branchName)
    else (false, err)
  | .timeoutExpired e => (false, e)
  | .launchError e => (false, e)

/-- The staging-failure message of commit_changes (src/main.py line 210). -/
def stageFailMsg (err : Str) : Str := chars ("Failed to stage files: ") ++ err

/-- The git steps commit_changes can attempt, for recording which
subprocess calls were issued. -/
inductive CommitStep where
  | stage
  | commitRun
deriving DecidableEq

/-- The commit step of commit_changes (lines 212 to 221), appending the
issued command to the step record. -/
def commitFinish (r : RunResult) (tr : List CommitStep) : (Bool × Str) × List CommitStep :=
  match r with
  | .completed rc _ err =>
    if rc == 0 then ((true, chars ("Commit successful")), tr ++ [CommitStep.commitRun])
    else ((false, err), tr ++ [CommitStep.commitRun])
  | .timeoutExpired e => ((false, e), tr ++ [CommitStep.commitRun])
  | .launchError e => ((false, e), tr ++ [CommitStep.commitRun])

/-- GitManager.commit_changes as a function of the staging and commit call
outcomes; the second component records which git steps were attempted,
in order.  When add_all holds and the staging call fails, the commit call
is never reached (lines 198 to 223). -/
def commit_changes (addRes commitRes : RunResult) (add_all : Bool) :
    (Bool × Str) × List CommitStep :=
  if add_all then
    match addRes with
    | .completed rc _ err =>
      if rc != 0 then ((false, stageFailMsg err), [CommitStep.stage])
      else commitFinish commitRes [CommitStep.stage]
    | .timeoutExpired e => ((false, e), [CommitStep.stage])
    | .launchError e => ((false, e), [CommitStep.stage])
  else commitFinish commitRes []

/-- The checkout-failure message of rename_branch (line 330). -/
def checkoutFailMsg (err : Str) : Str := chars ("Failed to checkout branch: ") ++ err

/-- The success message of rename_branch (line 339). -/
def renamedMsg (oldName newName : Str) : Str :=
  chars ("Branch renamed from ") ++ quoteStr oldName ++ chars (" to ") ++ quoteStr newName

/-- The git steps rename_branch can attempt, for recording which
subprocess calls were issued. -/
inductive RenameStep where
  | checkout (b : Str)
  | branchMove (b : Str)
deriving DecidableEq

/-- The rename step of rename_branch (lines 332 to 341), appending the
issued command to the step record. -/
def renameFinish (renRes : RunResult) (oldName newName : Str) (tr : List RenameStep) :
    (Bool × Str) × List RenameStep :=
  match renRes with
  | .completed rc _ err =>
    if rc == 0 then ((true, renamedMsg oldName newName), tr ++ [RenameStep.branchMove newName])
    else ((false, err), tr ++ [RenameStep.branchMove newName])
  | .timeoutExpired e => ((false, e), tr ++ [RenameStep.branchMove newName])
  | .launchError e => ((false, e), tr ++ [RenameStep.branchMove newName])

/-- GitManager.rename_branch as a function of the current-branch lookup
and the outcomes of its two possible subprocess calls; the second
component records the git commands issued, in order (lines 317 to 343). -/
def rename_branch (curr : Option Str) (chkRes renRes : RunResult) (oldName newName : Str) :
    (Bool × Str) × List RenameStep :=
  if curr ≠ some oldName then
    match chkRes with
    | .completed rc _ err =>
      if rc != 0 then ((false, checkoutFailMsg err), [RenameStep.checkout oldName])
      else renameFinish renRes oldName newName [RenameStep.checkout oldName]
    | .timeoutExpired e => ((false, e), [RenameStep.checkout oldName])
    | .launchError e => ((false, e), [RenameStep.checkout oldName])
  else renameFinish renRes oldName newName []

/-- A modelled repository: the branch names and the checked-out branch. -/
structure Repo where
  branches : List Str
  current : Str
deriving DecidableEq

/-- The stderr text the modelled git checkout produces for a missing
branch. -/
def pathspecErr : Str := chars ("error: pathspec did not match any file known to git")

/-- The stderr text the modelled git branch -m produces when the new name
already names another branch. -/
def branchExistsErr : Str := chars ("fatal: a branch with that name already exists")

/-- Modelled behavior of the external git checkout command: it succeeds
and switches the checked-out branch exactly when the target branch
exists, and otherwise fails with a pathspec diagnostic and leaves the
repository unchanged. -/
def gitCheckout (repo : Repo) (b : Str) : RunResult × Repo :=
  if b ∈ repo.branches then
    (RunResult.completed 0 [] [], { branches := repo.branches, current := b })
  else
    (RunResult.completed 1 [] pathspecErr, repo)

/-- Modelled behavior of the external git branch -m command: it renames
the checked-out branch in place, failing when the new name already names
a different existing branch. -/
def gitBranchMove (repo : Repo) (newName : Str) : RunResult × Repo :=
  if newName ∈ repo.branches ∧ newName ≠ repo.current then
    (RunResult.completed 128 [] branchExistsErr, repo)
  else
    (RunResult.completed 0 [] [],
      { branches := repo.branches.map (fun x => if x = repo.current then newName else x)
        current := newName })

/-- GitManager.rename_branch executed against the modelled git commands,
threading the repository state through the same control flow as
rename_branch: look up the current branch, switch to the old name when it
is not current, then rename.  The modelled current-branch lookup yields
the checked-out branch of the state. -/
def rename_branch_run (repo : Repo) (oldName newName : Str) :
    ((Bool × Str) × List RenameStep) × Repo :=
  let curr : Option Str := some repo.current
  if curr ≠ some oldName then
    match gitCheckout repo oldName with
    | (RunResult.completed rc _ err, repo1) =>
      if rc != 0 then (((false, checkoutFailMsg err), [RenameStep.checkout oldName]), repo1)
      else
        match gitBranchMove repo1 newName with
        | (renRes, repo2) =>
          (renameFinish renRes oldName newName [RenameStep.checkout oldName], repo2)
    | (RunResult.timeoutExpired e, repo1) =>
      (((false, e), [RenameStep.checkout oldName]), repo1)
    | (RunResult.launchError e, repo1) =>
      (((false, e), [RenameStep.checkout oldName]), repo1)
  else
    match gitBranchMove repo newName with
    | (renRes, repo2) => (renameFinish renRes oldName newName [], repo2)

theorem renameFinish_trace (r : RunResult) (oldName newName : Str) (tr : List RenameStep) :
    (renameFinish r oldName newName tr).2 = tr ++ [RenameStep.branchMove newName] := by
  cases r with
  | completed rc out err => by_cases h : (rc == 0) = true <;> simp [renameFinish, h]
  | timeoutExpired e => rfl
  | launchError e => rfl

theorem gitBranchMove_cases (repo : Repo) (newName : Str) :
    gitBranchMove repo newName = (RunResult.completed 128 [] branchExistsErr, repo)
  ∨ ((gitBranchMove repo newName).2.current = newName
      ∧ (gitBranchMove repo newName).1 = RunResult.completed 0 [] []) := by
  unfold gitBranchMove
  split
  · exact Or.inl rfl
  · exact Or.inr ⟨rfl, rfl⟩

/-- C4: when the branch to rename is not the checked-out branch,
rename_branch issues the checkout first; if that checkout fails it stops
with the checkout diagnostic and never issues the rename command; and
whenever the run against the modelled git commands reports success, the
resulting repository is checked out on the new name. -/
theorem c4_rename_branch (repo : Repo) (oldName newName : Str) :
    (repo.current ≠ oldName → oldName ∉ repo.branches →
        rename_branch_run repo oldName newName
          = (((false, checkoutFailMsg pathspecErr), [RenameStep.checkout oldName]), repo))
  ∧ (repo.current ≠ oldName →
        ((rename_branch_run repo oldName newName).1.2).head? = some (RenameStep.checkout oldName))
  ∧ ((rename_branch_run repo oldName newName).1.1.1 = true →
        ((rename_branch_run repo oldName newName).2).current = newName)
  ∧ (∀ (curr : Option Str) (rc : Int) (out err : Str) (renRes : RunResult),
        curr ≠ some oldName → rc ≠ 0 →
        rename_branch curr (RunResult.completed rc out err) renRes oldName newName
          = ((false, checkoutFailMsg err), [RenameStep.checkout oldName])) := by
  refine ⟨?_, ?_, ?_, ?_⟩
  · intro h1 h2
    simp [rename_branch_run, gitCheckout, h1, h2]
  · intro h1
    by_cases hm : oldName ∈ repo.branches
    · simp [rename_branch_run, gitCheckout, h1, hm, renameFinish_trace]
    · simp [rename_branch_run, gitCheckout, h1, hm]
  · intro hsucc
    by_cases hc : repo.current = oldName
    · subst hc
      have hred : rename_branch_run repo repo.current newName
          = (renameFinish (gitBranchMove repo newName).1 repo.current newName [],
              (gitBranchMove repo newName).2) := by
        simp [rename_branch_run]
      rw [hred] at hsucc ⊢
      rcases gitBranchMove_cases repo newName with h | h
      · rw [h] at hsucc
        simp [renameFinish] at hsucc
      · exact h.1
    · by_cases hm : oldName ∈ repo.branches
      · have hred : rename_branch_run repo oldName newName
            = (renameFinish (gitBranchMove (Repo.mk repo.branches oldName) newName).1
                 oldName newName [RenameStep.checkout oldName],
                (gitBranchMove (Repo.mk repo.branches oldName) newName).2) := by
          simp [rename_branch_run, gitCheckout, hc, hm]
        rw [hred] at hsucc ⊢
        rcases gitBranchMove_cases (Repo.mk repo.branches oldName) newName with h | h
        · rw [h] at hsucc
          simp [renameFinish] at hsucc
        · exact h.1
      · have hred : rename_branch_run repo oldName newName
            = (((false, checkoutFailMsg pathspecErr), [RenameStep.checkout oldName]), repo) := by
          simp [rename_branch_run, gitCheckout, hc, hm]
        rw [hred] at hsucc
        simp at hsucc
  · intro curr rc out err renRes hcur hrc
    simp [rename_branch, hcur, hrc]

theorem c4_rename_branch_witness :
    rename_branch_run (Repo.mk [chars ("main"), chars ("dev")] (chars ("main")))
        (chars ("feature")) (chars ("trunk"))
      = (((false, checkoutFailMsg pathspecErr), [RenameStep.checkout (chars ("feature"))]),
          Repo.mk [chars ("main"), chars ("dev")] (chars ("main")))
  ∧ ((rename_branch_run (Repo.mk [chars ("main"), chars ("dev")] (chars ("main")))
        (chars ("dev")) (chars ("trunk"))).1.2).head?
      = some (RenameStep.checkout (chars ("dev")))
  ∧ ((rename_branch_run (Repo.mk [chars ("main"), chars ("dev")] (chars ("main")))
        (chars ("dev")) (chars ("trunk"))).2).current = chars ("trunk")
  ∧ rename_branch none (RunResult.completed 1 [] (chars ("boom")))
        (RunResult.completed 0 [] []) (chars ("a")) (chars ("b"))
      = ((false, checkoutFailMsg (chars ("boom"))), [RenameStep.checkout (chars ("a"))]) :=
  ⟨(c4_rename_branch _ _ _).1 (by decide) (by decide),
   (c4_rename_branch _ _ _).2.1 (by decide),
   (c4_rename_branch _ _ _).2.2.1 (by decide),
   (c4_rename_branch (Repo.mk [] []) (chars ("a")) (chars ("b"))).2.2.2 none 1 []
     (chars ("boom")) (RunResult.completed 0 [] []) (by decide) (by decide)⟩

/-- C7: with stageAll set, a failed staging call makes commit_changes
return failure carrying the prefixed staging message without attempting
the commit call, while a commit-step failure returns the raw commit
stderr after both steps; the staging failure message always begins with
the fixed staging text. -/
theorem c7_commit_staging (rc rc2 : Int) (out err out2 err2 : Str) (commitRes : RunResult) :
    (rc ≠ 0 → commit_changes (RunResult.completed rc out err) commitRes true
        = ((false, stageFailMsg err), [CommitStep.stage]))
  ∧ (rc2 ≠ 0 → commit_changes (RunResult.completed 0 out err)
        (RunResult.completed rc2 out2 err2) true
        = ((false, err2), [CommitStep.stage, CommitStep.commitRun]))
  ∧ startswith (stageFailMsg err) (chars ("Failed to stage files: ")) = true := by
  refine ⟨?_, ?_, ?_⟩
  · intro h
    simp [commit_changes, h]
  · intro h
    simp [commit_changes, commitFinish, h]
  · exact startswith_append_self (chars ("Failed to stage files: ")) err

theorem c7_commit_staging_witness :
    commit_changes (RunResult.completed 1 [] (chars ("fatal: unable to stage")))
        (RunResult.completed 0 [] []) true
      = ((false, stageFailMsg (chars ("fatal: unable to stage"))), [CommitStep.stage])
  ∧ commit_changes (RunResult.completed 0 [] [])
        (RunResult.completed 1 [] (chars ("nothing to commit"))) true
      = ((false, chars ("nothing to commit")), [CommitStep.stage, CommitStep.commitRun])
  ∧ startswith (stageFailMsg (chars ("fatal: unable to stage")))
        (chars ("Failed to stage files: ")) = true :=
  ⟨((c7_commit_staging 1 0 [] (chars ("fatal: unable to stage")) [] []
      (RunResult.completed 0 [] [])).1 (by decide)),
   ((c7_commit_staging 0 1 [] [] [] (chars ("nothing to commit"))
      (RunResult.completed 0 [] [])).2.1 (by decide)),
   ((c7_commit_staging 1 0 [] (chars ("fatal: unable to stage")) [] []
      (RunResult.completed 0 [] [])).2.2)⟩

/-- C5 counterexample: the status and branch-list queries run with a five
second timeout, not the two seconds the claim assigns to every read-only
metadata query. -/
theorem c5_counterexample :
    (status_cmd ("/repo")).timeout = 5
  ∧ ((status_cmd ("/repo")).timeout == 2) = false
  ∧ (branch_all_cmd ("/repo")).timeout = 5
  ∧ ((branch_all_cmd ("/repo")).timeout == 2) = false := by
  decide

/-- C5 amended: the per-call timeouts are two seconds for the
current-branch, remote-URL, upstream and global-config queries, five
seconds for the status and branch-list queries and for every local
mutation, and thirty seconds for push, pull and push-with-upstream. -/
theorem c5_timeouts (p nm u b m : String) :
    (current_branch_cmd p).timeout = 2
  ∧ (remote_url_cmd p).timeout = 2
  ∧ (upstream_cmd p).timeout = 2
  ∧ config_name_cmd.timeout = 2
  ∧ config_email_cmd.timeout = 2
  ∧ (status_cmd p).timeout = 5
  ∧ (branch_all_cmd p).timeout = 5
  ∧ (add_remote_cmd p nm u).timeout = 5
  ∧ (set_upstream_cmd p nm b).timeout = 5
  ∧ (stage_cmd p).timeout = 5
  ∧ (commit_cmd p m).timeout = 5
  ∧ (checkout_cmd p b).timeout = 5
  ∧ (create_branch_cmd p b).timeout = 5
  ∧ (rename_checkout_cmd p b).timeout = 5
  ∧ (branch_move_cmd p b).timeout = 5
  ∧ (push_cmd p).timeout = 30
  ∧ (pull_cmd p).timeout = 30
  ∧ (push_set_upstream_cmd p nm b).timeout = 30 :=
  ⟨rfl, rfl, rfl, rfl, rfl, rfl, rfl, rfl, rfl, rfl, rfl, rfl, rfl, rfl, rfl, rfl, rfl, rfl⟩

/-- C6 counterexample: a launch failure and a failed tool run can produce
byte-identical results, so the caller of add_remote cannot tell a launch
error apart from a non-zero exit code. -/
theorem c6_counterexample :
    add_remote (RunResult.launchError (chars ("boom")))
      = add_remote (RunResult.completed 1 [] (chars ("boom")))
  ∧ add_remote (RunResult.launchError (chars ("boom"))) = (false, chars ("boom")) := by
  constructor <;> decide

/-- C6 amended: a failure to launch the external tool is caught and
surfaced through the same channel as a failed tool run: the mutation
returns false with the exception text, just as a non-zero exit returns
false with the stderr text, and the inspector query returns the absent
value in both cases. -/
theorem c6_launch_failure_reporting (e out err : Str) :
    add_remote (RunResult.launchError e) = (false, e)
  ∧ add_remote (RunResult.timeoutExpired e) = (false, e)
  ∧ add_remote (RunResult.completed 1 out err) = (false, err)
  ∧ get_repo_status (RunResult.launchError e) = none
  ∧ get_repo_status (RunResult.completed 1 out err) = none := by
  refine ⟨rfl, rfl, ?_, rfl, ?_⟩ <;> simp [add_remote, get_repo_status]

/-- A minimal filesystem model for the os.path calls used by is_git_repo:
a directory check implies existence, and nothing exists below a missing
path.  Paths are joined with a slash, as os.path.join does for a relative
second component. -/
structure FS where
  isdir : String → Bool
  pathExists : String → Bool
  isdir_imp : ∀ p, isdir p = true → pathExists p = true
  missing_no_children : ∀ p c, pathExists p = false → pathExists (p ++ "/" ++ c) = false

/-- GitManager.is_git_repo over the filesystem model: a directory named
.git exists inside the path (src/main.py lines 44 to 48). -/
def is_git_repo (fs : FS) (path : String) : Bool := fs.isdir (path ++ "/" ++ ".git")

/-- A run outcome that is not a successful completion: a non-zero exit
code or a raised exception.  On a path that is not a repository, every
git -C invocation of the inspector ends this way. -/
def isToolFailure : RunResult → Bool
  | .completed rc _ _ => rc != 0
  | .timeoutExpired _ => true
  | .launchError _ => true

/-- C8: a path whose .git marker directory is missing, in particular any
path that does not exist at all, is not reported as a repository, and on
a failing git call every inspector query degrades to its absent or empty
result instead of raising. -/
theorem c8_non_repo (fs : FS) (p : String) (r : RunResult) :
    (fs.isdir (p ++ "/" ++ ".git") = false → is_git_repo fs p = false)
  ∧ (fs.pathExists p = false → is_git_repo fs p = false)
  ∧ (isToolFailure r = true →
        get_repo_status r = none
      ∧ get_current_branch r = none
      ∧ get_remote_url r = none
      ∧ has_upstream_branch r = false
      ∧ get_all_branches r = []) := by
  refine ⟨fun h => h, ?_, ?_⟩
  · intro h
    have hchild := fs.missing_no_children p (".git") h
    have hdir : fs.isdir (p ++ "/" ++ ".git") = false := by
      by_contra hne
      have : fs.isdir (p ++ "/" ++ ".git") = true := by
        cases hval : fs.isdir (p ++ "/" ++ ".git")
        · exact absurd hval hne
        · rfl
      rw [fs.isdir_imp _ this] at hchild
      exact Bool.noConfusion hchild
    exact hdir
  · intro h
    cases r with
    | completed rc out err =>
      have hrc : ¬ rc = 0 := by
        simpa [isToolFailure] using h
      refine ⟨?_, ?_, ?_, ?_, ?_⟩ <;>
        simp [get_repo_status, get_current_branch, get_remote_url, has_upstream_branch,
          get_all_branches, hrc]
    | timeoutExpired e => exact ⟨rfl, rfl, rfl, rfl, rfl⟩
    | launchError e => exact ⟨rfl, rfl, rfl, rfl, rfl⟩

/-- A filesystem on which nothing exists, used to instantiate
c8_non_repo. -/
def emptyFS : FS :=
  { isdir := fun _ => false
    pathExists := fun _ => false
    isdir_imp := fun _ h => h
    missing_no_children := fun _ _ _ => rfl }

theorem c8_non_repo_witness :
    is_git_repo emptyFS ("/nowhere") = false
  ∧ (get_repo_status (RunResult.completed 128 [] (chars ("fatal: not a git repository"))) = none
      ∧ get_current_branch (RunResult.completed 128 [] (chars ("fatal: not a git repository")))
          = none
      ∧ get_remote_url (RunResult.completed 128 [] (chars ("fatal: not a git repository")))
          = none
      ∧ has_upstream_branch (RunResult.completed 128 [] (chars ("fatal: not a git repository")))
          = false
      ∧ get_all_branches (RunResult.completed 128 [] (chars ("fatal: not a git repository")))
          = []) :=
  ⟨(c8_non_repo emptyFS ("/nowhere")
      (RunResult.completed 128 [] (chars ("fatal: not a git repository")))).2.1 rfl,
   (c8_non_repo emptyFS ("/nowhere")
      (RunResult.completed 128 [] (chars ("fatal: not a git repository")))).2.2 (by decide)⟩

/-- C9: every mutation operation is total at its interface, and a raised
launch failure or timeout at any of its subprocess calls is caught and
returned as the pair of false and the exception text. -/
theorem c9_mutations_total (e : Str) (b oldName newName : Str) (r2 : RunResult) :
    add_remote (RunResult.timeoutExpired e) = (false, e)
  ∧ add_remote (RunResult.launchError e) = (false, e)
  ∧ set_upstream (RunResult.timeoutExpired e) = (false, e)
  ∧ set_upstream (RunResult.launchError e) = (false, e)
  ∧ push_set_upstream (RunResult.timeoutExpired e) = (false, e)
  ∧ push_set_upstream (RunResult.launchError e) = (false, e)
  ∧ push_changes (RunResult.timeoutExpired e) = (false, e)
  ∧ push_changes (RunResult.launchError e) = (false, e)
  ∧ pull_changes (RunResult.timeoutExpired e) = (false, e)
  ∧ pull_changes (RunResult.launchError e) = (false, e)
  ∧ checkout_branch b (RunResult.timeoutExpired e) = (false, e)
  ∧ checkout_branch b (RunResult.launchError e) = (false, e)
  ∧ create_branch b (RunResult.timeoutExpired e) = (false, e)
  ∧ create_branch b (RunResult.launchError e) = (false, e)
  ∧ (commit_changes (RunResult.timeoutExpired e) r2 true).1 = (false, e)
  ∧ (commit_changes (RunResult.launchError e) r2 true).1 = (false, e)
  ∧ (commit_changes (RunResult.completed 0 [] []) (RunResult.timeoutExpired e) true).1
      = (false, e)
  ∧ (commit_changes (RunResult.completed 0 [] []) (RunResult.launchError e) true).1
      = (false, e)
  ∧ (commit_changes r2 (RunResult.timeoutExpired e) false).1 = (false, e)
  ∧ (commit_changes r2 (RunResult.launchError e) false).1 = (false, e)
  ∧ (rename_branch none (RunResult.timeoutExpired e) r2 oldName newName).1 = (false, e)
  ∧ (rename_branch none (RunResult.launchError e) r2 oldName newName).1 = (false, e)
  ∧ (rename_branch (some oldName) r2 (RunResult.timeoutExpired e) oldName newName).1
      = (false, e)
  ∧ (rename_branch (some oldName) r2 (RunResult.launchError e) oldName newName).1
      = (false, e) := by
  refine ⟨rfl, rfl, rfl, rfl, rfl, rfl, rfl, rfl, rfl, rfl, rfl, rfl, rfl, rfl,
    rfl, rfl, ?_, ?_, ?_, ?_, ?_, ?_, ?_, ?_⟩
  · simp [commit_changes, commitFinish]
  · simp [commit_changes, commitFinish]
  · simp [commit_changes, commitFinish]
  · simp [commit_changes, commitFinish]
  · simp [rename_branch]
  · simp [rename_branch]
  · simp [rename_branch, renameFinish]
  · simp [rename_branch, renameFinish]

